import Mathlib

/-!
Shallow embedding of the marketplace UI logic:
`MarketplaceGrid` (filtering, sorting, the reserved-for-you indicator) and
`CreateListingModal` (form validation, submission, close guard).

JavaScript string/number builtins used by the source (`toLowerCase`,
`includes`, `trim` emptiness, `parseFloat`, `parseInt`, `startsWith`,
`slice`, the hex regex test, and `Array.prototype.sort` with a comparator)
are modelled explicitly below.  Numbers are modelled by `Rat`/`Int`
(exact decimal values; IEEE rounding is not modelled), and `parseFloat`
returns `Option JSNum` where `none` stands for `NaN`.
-/

/-- Characters removed by JavaScript `trim` and skipped by `parseFloat` /
`parseInt`: the ECMAScript WhiteSpace and LineTerminator sets. -/
def jsWhitespace (c : Char) : Bool :=
  c == ' ' || c == '\t' || c == '\n' || c == '\x0b' || c == '\x0c' || c == '\r' ||
  c.toNat == 0xA0 || c.toNat == 0x1680 ||
  (0x2000 ≤ c.toNat && c.toNat ≤ 0x200A) ||
  c.toNat == 0x2028 || c.toNat == 0x2029 || c.toNat == 0x202F ||
  c.toNat == 0x205F || c.toNat == 0x3000 || c.toNat == 0xFEFF

/-- Truthiness test for `s.trim()` being empty: a JS string trims to the
empty string exactly when every character is whitespace. -/
def isBlank (s : String) : Bool :=
  s.toList.all jsWhitespace

/-- Truthiness of an optional string in JS: `undefined`/`null` and the empty
string are falsy, every other string is truthy. -/
def jsTruthy (o : Option String) : Bool :=
  match o with
  | none => false
  | some s => !(s.toList.isEmpty)

/-- Result of `parseFloat`: a finite rational value or a signed infinity
(`inf true` is `+Infinity`).  `NaN` is `none` at the `Option` layer. -/
inductive JSNum where
  | fin (q : ℚ)
  | inf (pos : Bool)
deriving DecidableEq, Repr

def digitVal (c : Char) : Nat := c.toNat - '0'.toNat

def hexDigitVal (c : Char) : Nat :=
  if c.isDigit then c.toNat - '0'.toNat
  else if 'a' ≤ c && c ≤ 'f' then c.toNat - 'a'.toNat + 10
  else c.toNat - 'A'.toNat + 10

def digitsToNat (ds : List Char) : Nat :=
  ds.foldl (fun n c => 10 * n + digitVal c) 0

def hexDigitsToNat (ds : List Char) : Nat :=
  ds.foldl (fun n c => 16 * n + hexDigitVal c) 0

/-- Split an optional leading `-` / `+` sign: returns (isNegative, rest). -/
def splitSign : List Char → Bool × List Char
  | '-' :: rest => (true, rest)
  | '+' :: rest => (false, rest)
  | rest => (false, rest)

/-- Model of JavaScript `parseFloat`: skip leading whitespace, read an
optional sign, then the longest `Infinity`-or-decimal-literal prefix
(integer digits, optional fraction, optional exponent whose digits must be
non-empty to count).  Returns `none` when no digits are found (JS `NaN`).
The value is the exact rational `sign * (intDigits.fracDigits) * 10^exp`. -/
def parseFloatJS (s : String) : Option JSNum :=
  let cs := s.toList.dropWhile jsWhitespace
  let (neg, cs1) := splitSign cs
  if cs1.take 8 = "Infinity".toList then some (.inf (!neg))
  else
    let intPart := cs1.takeWhile Char.isDigit
    let rest1 := cs1.dropWhile Char.isDigit
    let fracPart := match rest1 with
      | '.' :: r => r.takeWhile Char.isDigit
      | _ => []
    let rest2 := match rest1 with
      | '.' :: r => r.dropWhile Char.isDigit
      | _ => rest1
    if intPart.isEmpty && fracPart.isEmpty then none
    else
      let expVal : Int := match rest2 with
        | 'e' :: r =>
          let (eneg, r2) := splitSign r
          let eds := r2.takeWhile Char.isDigit
          if eds.isEmpty then 0
          else if eneg then -(digitsToNat eds : Int) else (digitsToNat eds : Int)
        | 'E' :: r =>
          let (eneg, r2) := splitSign r
          let eds := r2.takeWhile Char.isDigit
          if eds.isEmpty then 0
          else if eneg then -(digitsToNat eds : Int) else (digitsToNat eds : Int)
        | _ => 0
      let m : Int :=
        ((digitsToNat intPart : Int) * 10 ^ fracPart.length + (digitsToNat fracPart : Int))
      let sm : Int := if neg then -m else m
      let e : Int := expVal - (fracPart.length : Int)
      let v : ℚ :=
        if 0 ≤ e then Rat.divInt (sm * 10 ^ e.toNat) 1 else Rat.divInt sm (10 ^ (-e).toNat)
      some (.fin v)

/-- Model of JavaScript `parseInt` with no radix argument: skip whitespace,
optional sign, a `0x`/`0X` prefix selects base 16, otherwise decimal digits;
`none` when no digits are found (JS `NaN`). -/
def parseIntJS (s : String) : Option Int :=
  let cs := s.toList.dropWhile jsWhitespace
  let (neg, cs1) := splitSign cs
  match cs1 with
  | '0' :: 'x' :: rest =>
    let ds := rest.takeWhile (fun c => c.isDigit || ('a' ≤ c && c ≤ 'f') || ('A' ≤ c && c ≤ 'F'))
    if ds.isEmpty then none
    else some ((if neg then -1 else 1) * (hexDigitsToNat ds : Int))
  | '0' :: 'X' :: rest =>
    let ds := rest.takeWhile (fun c => c.isDigit || ('a' ≤ c && c ≤ 'f') || ('A' ≤ c && c ≤ 'F'))
    if ds.isEmpty then none
    else some ((if neg then -1 else 1) * (hexDigitsToNat ds : Int))
  | _ =>
    let ds := cs1.takeWhile Char.isDigit
    if ds.isEmpty then none
    else some ((if neg then -1 else 1) * (digitsToNat ds : Int))

/-- Evaluation of the JS comparison `x <= 0` where `x` is a `parseFloat`
result: every comparison with `NaN` is false. -/
def jsLeZero (x : Option JSNum) : Bool :=
  match x with
  | none => false
  | some (.fin q) => decide (q ≤ 0)
  | some (.inf pos) => !pos

/-- Sign of the JS subtraction `a - b` of two `parseFloat` results, as used
by an array-sort comparator: any `NaN` operand makes the difference `NaN`,
which the sort machinery treats as `+0`; subtracting infinities of the same
sign also gives `NaN`. -/
def cmpSign (a b : Option JSNum) : Int :=
  match a, b with
  | some (.fin x), some (.fin y) => if x < y then -1 else if y < x then 1 else 0
  | some (.fin _), some (.inf pos) => if pos then -1 else 1
  | some (.inf pos), some (.fin _) => if pos then 1 else -1
  | some (.inf p), some (.inf q) => if p == q then 0 else if p then 1 else -1
  | _, _ => 0

/-- Model of JavaScript `haystack.includes(needle)`: some contiguous run of
`haystack` equals `needle`. -/
def containsList (hay sub : List Char) : Bool :=
  (List.range (hay.length + 1)).any (fun i => (hay.drop i).take sub.length == sub)

/-- Case-insensitive containment as written in the source:
`hay.toLowerCase().includes(sub.toLowerCase())`. -/
def containsCI (hay sub : String) : Bool :=
  containsList (hay.toList.map Char.toLower) (sub.toList.map Char.toLower)

/-! ### Data model (src/types/marketplace, as used by the two components) -/

/-- A listing as consumed by `MarketplaceGrid`.  `createdAt` is the epoch
value of `Date.getTime()`, `likes` a JS number (integral), `price` the raw
decimal string, and `escrowBuyerAddress` the optional gate address. -/
structure MarketplaceItem where
  id : Nat
  title : String
  description : String
  price : String
  category : String
  image : String
  seller : String
  createdAt : Int
  likes : Int
  listingType : String
  escrowDuration : Nat
  escrowBuyerAddress : Option String
deriving DecidableEq, Repr

/-- The `ListingFormData` state of `CreateListingModal`. -/
structure ListingFormData where
  title : String
  description : String
  price : String
  category : String
  escrowDuration : String
  listingType : String
  escrowBuyerAddress : String
deriving DecidableEq, Repr

/-! ### MarketplaceGrid (src/unnamed/part_000) -/

/-- The filter predicate of `filteredItems` in `MarketplaceGrid`:
`matchesSearch && matchesCategory && canView`, where `canViewEscrowListing`
is the policy of the session collaborator, abstracted as a parameter. -/
def matchesItem (canViewEscrowListing : Option String → Bool)
    (searchQuery category : String) (item : MarketplaceItem) : Bool :=
  let matchesSearch := containsCI item.title searchQuery || containsCI item.seller searchQuery
  let matchesCategory := category == "all" || item.category == category
  let canView := if item.listingType == "escrow"
    then canViewEscrowListing item.escrowBuyerAddress
    else true
  matchesSearch && matchesCategory && canView

/-- The derived `filteredItems` array of `MarketplaceGrid`. -/
def filteredItems (canViewEscrowListing : Option String → Bool)
    (searchQuery category : String) (items : List MarketplaceItem) : List MarketplaceItem :=
  items.filter (matchesItem canViewEscrowListing searchQuery category)

/-- The comparator passed to `.sort` in `sortedItems`, switching on the
`sortBy` key exactly as the source does; the value is the sign-relevant
result of each `return` expression (for the price branches, `parseFloat`
subtraction with `NaN` treated as `+0` by the sort machinery). -/
def sortCmp (sortBy : String) (a b : MarketplaceItem) : Int :=
  match sortBy with
  | "price-low" => cmpSign (parseFloatJS a.price) (parseFloatJS b.price)
  | "price-high" => cmpSign (parseFloatJS b.price) (parseFloatJS a.price)
  | "popular" => b.likes - a.likes
  | "recent" => b.createdAt - a.createdAt
  | _ => 0

/-- The derived `sortedItems` array: `[...filteredItems].sort(cmp)` is a
stable sort, modelled by `List.mergeSort` keeping `a` before `b` whenever
the comparator is non-positive. -/
def sortedItems (sortBy : String) (filtered : List MarketplaceItem) : List MarketplaceItem :=
  filtered.mergeSort (fun a b => decide (sortCmp sortBy a b ≤ 0))

/-- The render condition of the "Reserved for you" indicator:
`item.escrowBuyerAddress && isConnected` (JS truthiness of the optional
address conjoined with the connection flag). -/
def reservedForYouShown (item : MarketplaceItem) (isConnected : Bool) : Bool :=
  jsTruthy item.escrowBuyerAddress && isConnected

/-! ### CreateListingModal (src/src/components/CreateListingModal.tsx) -/

/-- Character class of the regex `[a-fA-F0-9]`. -/
def isHexChar (c : Char) : Bool :=
  c.isDigit || ('a' ≤ c && c ≤ 'f') || ('A' ≤ c && c ≤ 'F')

/-- `validateSuiAddress`: strip an optional leading `0x`, then test the
regex `[a-fA-F0-9]` applied to exactly 64 characters anchored on both
sides. -/
def validateSuiAddress (address : String) : Bool :=
  let cs := address.toList
  let cleanAddress := if cs.take 2 = ['0', 'x'] then cs.drop 2 else cs
  decide (cleanAddress.length = 64) && cleanAddress.all isHexChar

/-- The price condition of `validateForm`:
`!formData.price || parseFloat(formData.price) <= 0`. -/
def priceInvalid (price : String) : Bool :=
  price == "" || jsLeZero (parseFloatJS price)

def msgImage : String := "Please upload an image for your listing"
def msgTitle : String := "Please enter a title for your listing"
def msgDescription : String := "Please enter a description for your listing"
def msgPrice : String := "Please enter a valid price"
def msgAddressEmpty : String := "Please enter the buyer\x27s Sui wallet address for escrow listing"
def msgAddressShape : String := "Please enter a valid Sui wallet address (64 character hex string)"
def msgSubmitFailed : String := "Failed to create listing. Please try again."

/-- `validateForm`, returning the toast message of the first failing rule
(`none` when the form passes).  `selectedImage` is the presence of the
staged `File`, `imagePreview` the optional preview string; the source
checks `!selectedImage || !imagePreview`. -/
def validateForm (selectedImage : Bool) (imagePreview : Option String)
    (formData : ListingFormData) : Option String :=
  if !selectedImage || !jsTruthy imagePreview then some msgImage
  else if isBlank formData.title then some msgTitle
  else if isBlank formData.description then some msgDescription
  else if priceInvalid formData.price then some msgPrice
  else if formData.listingType == "escrow" then
    if isBlank formData.escrowBuyerAddress then some msgAddressEmpty
    else if !validateSuiAddress formData.escrowBuyerAddress then some msgAddressShape
    else none
  else none

/-- The record handed to `addItem` on a successful submission. -/
structure NewItemFields where
  title : String
  description : String
  price : String
  category : String
  image : String
  seller : String
  escrowDuration : Option Int
  listingType : String
  escrowBuyerAddress : Option String
deriving DecidableEq, Repr

/-- The argument of the `addItem` call in `handleSubmit`, built from the
form state and the staged preview. -/
def submittedItem (formData : ListingFormData) (imagePreview : String) : NewItemFields :=
  { title := formData.title
    description := formData.description
    price := formData.price
    category := formData.category
    image := imagePreview
    seller := "CurrentUser"
    escrowDuration := parseIntJS formData.escrowDuration
    listingType := formData.listingType
    escrowBuyerAddress :=
      if formData.listingType == "escrow" then some formData.escrowBuyerAddress else none }

/-- The component state touched by `handleSubmit` / `handleClose`. -/
structure ModalState where
  formData : ListingFormData
  selectedImage : Bool
  imagePreview : Option String
  isSubmitting : Bool
deriving DecidableEq, Repr

/-- The initial `ListingFormData`, used by both reset sites. -/
def initialFormData : ListingFormData :=
  { title := ""
    description := ""
    price := ""
    category := "art"
    escrowDuration := "7"
    listingType := "standard"
    escrowBuyerAddress := "" }

/-- Where the awaited part of `handleSubmit` can fail: the simulated delay
promise, or the `addItem` call of the store. -/
inductive SubmitOutcome where
  | success
  | delayThrows
  | addItemThrows
deriving DecidableEq, Repr

/-- Externally visible effects of one `handleSubmit` / `handleClose` run. -/
structure SubmitEffects where
  errorToast : Option String
  successToast : Option String
  added : Option NewItemFields
  closed : Bool
deriving DecidableEq, Repr

/-- One run of `handleSubmit`: validation first (an early return with the
toast of that rule), then the awaited section inside `try`; a throw from the delay
or from `addItem` lands in `catch` (error toast, no reset, no close) and
`finally` clears `isSubmitting`.  On success the form and staged image are
reset and `onClose()` fires. -/
def handleSubmit (outcome : SubmitOutcome) (st : ModalState) : ModalState × SubmitEffects :=
  match validateForm st.selectedImage st.imagePreview st.formData with
  | some msg =>
    (st, { errorToast := some msg, successToast := none, added := none, closed := false })
  | none =>
    match outcome with
    | .delayThrows =>
      ({ st with isSubmitting := false },
       { errorToast := some msgSubmitFailed, successToast := none, added := none, closed := false })
    | .addItemThrows =>
      ({ st with isSubmitting := false },
       { errorToast := some msgSubmitFailed, successToast := none, added := none, closed := false })
    | .success =>
      ({ formData := initialFormData, selectedImage := false, imagePreview := none,
         isSubmitting := false },
       { errorToast := none
         successToast := some (if st.formData.listingType == "escrow"
           then "🔒 Escrow listing created successfully!"
           else "🎉 Listing created successfully!")
         added := some (submittedItem st.formData (st.imagePreview.getD ""))
         closed := true })

/-- One run of `handleClose`: a guard returns immediately while a submission
is in flight; otherwise `onClose()` fires and the deferred reset restores
the initial form and clears the staged image. -/
def handleClose (st : ModalState) : ModalState × Bool :=
  if st.isSubmitting then (st, false)
  else
    ({ formData := initialFormData, selectedImage := false, imagePreview := none,
       isSubmitting := st.isSubmitting }, true)

/-- Whether the price string of an item parses to a finite number (so the sort
comparator behaves as a numeric comparison, with no `NaN`/infinite case). -/
def hasFinitePrice (i : MarketplaceItem) : Bool :=
  match parseFloatJS i.price with
  | some (JSNum.fin _) => true
  | _ => false

/-- The numeric value of the price string of an item (0 in the non-finite case,
which is irrelevant under `hasFinitePrice`). -/
def priceQ (i : MarketplaceItem) : ℚ :=
  match parseFloatJS i.price with
  | some (JSNum.fin q) => q
  | _ => 0

/-! ### Concrete sample data for witnesses -/

/-- A standard listing with the given id, price string, creation time and
like count. -/
def sampleItem (n : Nat) (p : String) (created likes : Int) : MarketplaceItem :=
  { id := n, title := "t", description := "d", price := p, category := "art",
    image := "i", seller := "s", createdAt := created, likes := likes,
    listingType := "standard", escrowDuration := 7, escrowBuyerAddress := none }

/-- Three sample listings with distinct finite prices. -/
def sampleItems : List MarketplaceItem :=
  [sampleItem 1 "2" 10 5, sampleItem 2 "1" 20 3, sampleItem 3 "3.5" 5 9]


/-- A filled-in standard form that passes validation. -/
def sampleForm : ListingFormData :=
  { title := "t", description := "d", price := "1", category := "art",
    escrowDuration := "7", listingType := "standard", escrowBuyerAddress := "" }

/-- A component state holding `sampleForm` with a staged image, not
submitting. -/
def sampleState : ModalState :=
  { formData := sampleForm, selectedImage := true, imagePreview := some "p",
    isSubmitting := false }

/-- The same component state with a submission in flight. -/
def sampleSubmittingState : ModalState :=
  { formData := sampleForm, selectedImage := true, imagePreview := some "p",
    isSubmitting := true }

/-! ### Helper lemmas -/

/-- Characterization of the JS `includes` model as substring existence. -/
theorem containsList_iff (hay sub : List Char) :
    containsList hay sub = true ↔ ∃ s t, s ++ sub ++ t = hay := by
  unfold containsList
  rw [List.any_eq_true]
  simp only [List.mem_range, beq_iff_eq]
  constructor
  · rintro ⟨i, _, heq⟩
    refine ⟨hay.take i, (hay.drop i).drop sub.length, ?_⟩
    calc hay.take i ++ sub ++ (hay.drop i).drop sub.length
        = hay.take i ++ ((hay.drop i).take sub.length ++ (hay.drop i).drop sub.length) := by
          rw [heq, List.append_assoc]
      _ = hay.take i ++ hay.drop i := by rw [List.take_append_drop]
      _ = hay := List.take_append_drop i hay
  · rintro ⟨s, t, rfl⟩
    refine ⟨s.length, ?_, ?_⟩
    · simp [List.length_append]
      omega
    · rw [List.append_assoc, List.drop_left, List.take_left]

/-- The price condition of `validateForm` holds exactly for the empty
string, a non-positive finite parse, or a parse to negative infinity. -/
theorem priceInvalid_iff (p : String) :
    priceInvalid p = true ↔
      (p = "" ∨ (∃ q : ℚ, parseFloatJS p = some (JSNum.fin q) ∧ q ≤ 0) ∨
        parseFloatJS p = some (JSNum.inf false)) := by
  unfold priceInvalid jsLeZero
  rcases h : parseFloatJS p with _ | x
  · simp [h]
  · rcases x with q | pos
    · simp [h]
    · cases pos <;> simp [h]

/-! ### Claims about the address validator and the price rule -/

/-- C2: `validateSuiAddress` accepts a string iff, after stripping an
optional leading `0x`, the remainder is exactly 64 characters, each a hex
digit; in particular `0x` + 64 hex characters passes, a 63-character
remainder fails, and a remainder with a non-hex character fails. -/
theorem claim_C2_address_validation :
    (∀ a : String, validateSuiAddress a = true ↔
      ∃ core : List Char,
        (a.toList = ['0', 'x'] ++ core ∨ a.toList = core) ∧
        core.length = 64 ∧ ∀ c ∈ core, isHexChar c = true) ∧
    validateSuiAddress ("0x" ++ String.mk (List.replicate 64 'a')) = true ∧
    validateSuiAddress (String.mk (List.replicate 63 'a')) = false ∧
    validateSuiAddress ("0x" ++ String.mk (List.replicate 63 'a' ++ ['g'])) = false := by
  refine ⟨?_, by decide, by decide, by decide⟩
  intro a
  unfold validateSuiAddress
  by_cases h : a.toList.take 2 = ['0', 'x']
  · simp only [h, if_pos rfl, Bool.and_eq_true, decide_eq_true_eq, List.all_eq_true]
    constructor
    · rintro ⟨hlen, hhex⟩
      refine ⟨a.toList.drop 2, Or.inl ?_, hlen, hhex⟩
      conv_lhs => rw [← List.take_append_drop 2 a.toList, h]
    · rintro ⟨core, hcore | hcore, hlen, hhex⟩
      · have hdrop : a.toList.drop 2 = core := by
          rw [hcore]; rfl
        rw [hdrop]; exact ⟨hlen, hhex⟩
      · exfalso
        rcases hc : a.toList with _ | ⟨c0, tail⟩
        · rw [hc] at h
          simp at h
        · rcases tail with _ | ⟨c1, rest⟩
          · rw [hc] at h
            simp at h
          · rw [hc] at h
            simp at h
            have hmem : c1 ∈ core := by
              rw [← hcore, hc]
              exact List.mem_cons_of_mem _ (List.mem_cons_self _ _)
            have hhx := hhex c1 hmem
            rw [h.2] at hhx
            exact absurd hhx (by decide)
  · simp only [h, if_neg h, Bool.and_eq_true, decide_eq_true_eq, List.all_eq_true]
    constructor
    · rintro ⟨hlen, hhex⟩
      exact ⟨a.toList, Or.inr rfl, hlen, hhex⟩
    · rintro ⟨core, hcore | hcore, hlen, hhex⟩
      · exfalso
        apply h
        rw [hcore]; rfl
      · rw [hcore]; exact ⟨hlen, hhex⟩

/-- C3 counterexample: the price string `"abc"` does not parse to a value
strictly greater than zero (`parseFloat` gives `NaN`), yet an otherwise
valid submission with that price passes validation, because
`parseFloat(price) <= 0` is false for `NaN`; the claimed "rejects unless
the price parses to a positive value" therefore fails at `"abc"`. -/
theorem claim_C3_counterexample :
    parseFloatJS "abc" = none ∧
    priceInvalid "abc" = false ∧
    validateForm true (some "data:image/png")
      { title := "t", description := "d", price := "abc", category := "art",
        escrowDuration := "7", listingType := "standard", escrowBuyerAddress := "" } = none := by
  refine ⟨by decide, by decide, by decide⟩

/-- C3 (amended): when the staged image is present and title and description
are non-blank, validation rejects with the price message exactly when the
price string is empty, or `parseFloat` yields a finite value that is at most
zero, or it yields negative infinity; a price string that parses to `NaN`
(for example a non-numeric string) is NOT rejected by the price rule.  In
particular `"0"` and `"-1"` are rejected and `"0.01"` is accepted. -/
theorem claim_C3_price_validation :
    (∀ (selectedImage : Bool) (imagePreview : Option String) (fd : ListingFormData),
      selectedImage = true → jsTruthy imagePreview = true →
      isBlank fd.title = false → isBlank fd.description = false →
      (validateForm selectedImage imagePreview fd = some msgPrice ↔
        (fd.price = "" ∨
         (∃ q : ℚ, parseFloatJS fd.price = some (JSNum.fin q) ∧ q ≤ 0) ∨
         parseFloatJS fd.price = some (JSNum.inf false)))) ∧
    priceInvalid "0" = true ∧ priceInvalid "-1" = true ∧ priceInvalid "0.01" = false := by
  refine ⟨?_, by decide, by decide, by decide⟩
  intro si ip fd hsi hip ht hd
  subst hsi
  rw [← priceInvalid_iff]
  unfold validateForm
  rw [hip, ht, hd]
  simp only [Bool.not_true, Bool.or_self, Bool.false_eq_true, if_false]
  by_cases hp : priceInvalid fd.price
  · rw [if_pos hp]
    simp [hp]
  · rw [if_neg hp]
    rw [Bool.not_eq_true] at hp
    rw [hp]
    simp only [Bool.false_eq_true, iff_false]
    intro hcontra
    by_cases he : fd.listingType == "escrow"
    · rw [if_pos he] at hcontra
      by_cases hb : isBlank fd.escrowBuyerAddress
      · rw [if_pos hb] at hcontra
        exact absurd (Option.some.inj hcontra) (by decide)
      · rw [if_neg hb] at hcontra
        by_cases hv : validateSuiAddress fd.escrowBuyerAddress
        · simp [hv] at hcontra
        · simp only [Bool.not_eq_true] at hv
          rw [hv] at hcontra
          simp only [Bool.not_false, if_pos rfl] at hcontra
          exact absurd (Option.some.inj hcontra) (by decide)
    · rw [if_neg he] at hcontra
      exact Option.noConfusion hcontra

/-- C3 witness: the concrete price `"0"` on an otherwise valid form is
rejected with the price message. -/
theorem claim_C3_price_validation_witness :
    validateForm true (some "data:image/png")
      { title := "t", description := "d", price := "0", category := "art",
        escrowDuration := "7", listingType := "standard", escrowBuyerAddress := "" }
      = some msgPrice := by
  apply (claim_C3_price_validation.1 true (some "data:image/png") _ rfl (by decide)
    (by decide) (by decide)).mpr
  exact Or.inr (Or.inl ⟨0, by decide, le_refl 0⟩)

/-! ### Claims about submission, validation order, and the UI guards -/

/-- C6: for a form state that passes validation, the record handed to
`addItem` carries `escrowBuyerAddress` (equal to the buyer address field)
exactly when the listing type of the form is `"escrow"`; otherwise the field is
absent. -/
theorem claim_C6_escrow_field_presence
    (fd : ListingFormData) (si : Bool) (ip : Option String) (preview : String)
    (_hvalid : validateForm si ip fd = none) :
    ((submittedItem fd preview).escrowBuyerAddress.isSome = true ↔
      fd.listingType = "escrow") ∧
    (fd.listingType = "escrow" →
      (submittedItem fd preview).escrowBuyerAddress = some fd.escrowBuyerAddress) ∧
    (fd.listingType ≠ "escrow" →
      (submittedItem fd preview).escrowBuyerAddress = none) := by
  unfold submittedItem
  by_cases he : fd.listingType = "escrow"
  · simp [he]
  · simp [he]

/-- C6 witness: a concrete valid escrow form submits with the buyer address
included, and a concrete valid standard form submits without it. -/
theorem claim_C6_escrow_field_presence_witness :
    (submittedItem
      { title := "t", description := "d", price := "1", category := "art",
        escrowDuration := "7", listingType := "escrow",
        escrowBuyerAddress := "0x" ++ String.mk (List.replicate 64 'a') }
      "p").escrowBuyerAddress = some ("0x" ++ String.mk (List.replicate 64 'a')) ∧
    (submittedItem
      { title := "t", description := "d", price := "1", category := "art",
        escrowDuration := "7", listingType := "standard", escrowBuyerAddress := "" }
      "p").escrowBuyerAddress = none := by
  constructor
  · exact (claim_C6_escrow_field_presence _ true (some "p") "p" (by decide)).2.1 rfl
  · exact (claim_C6_escrow_field_presence _ true (some "p") "p" (by decide)).2.2 (by decide)

/-- C7: when the awaited step of `handleSubmit` throws (the simulated delay
or the `addItem` call), the failure is caught and reported with the failure
toast, no item is added, the surface is not closed, and every form field and
the staged image are exactly as before the submission. -/
theorem claim_C7_failure_preserves_form
    (outcome : SubmitOutcome) (st : ModalState)
    (hfail : outcome ≠ SubmitOutcome.success)
    (hvalid : validateForm st.selectedImage st.imagePreview st.formData = none) :
    (handleSubmit outcome st).1.formData = st.formData ∧
    (handleSubmit outcome st).1.selectedImage = st.selectedImage ∧
    (handleSubmit outcome st).1.imagePreview = st.imagePreview ∧
    (handleSubmit outcome st).1.isSubmitting = false ∧
    (handleSubmit outcome st).2.errorToast = some msgSubmitFailed ∧
    (handleSubmit outcome st).2.added = none ∧
    (handleSubmit outcome st).2.closed = false := by
  unfold handleSubmit
  rw [hvalid]
  cases outcome with
  | success => exact absurd rfl hfail
  | delayThrows => exact ⟨rfl, rfl, rfl, rfl, rfl, rfl, rfl⟩
  | addItemThrows => exact ⟨rfl, rfl, rfl, rfl, rfl, rfl, rfl⟩

/-- C7 witness: a concrete valid form state run through a throwing delay
step keeps all its fields, reports the failure, and stays open. -/
theorem claim_C7_failure_preserves_form_witness :
    (handleSubmit SubmitOutcome.delayThrows sampleState).1.formData = sampleForm ∧
    (handleSubmit SubmitOutcome.delayThrows sampleState).2.closed = false := by
  refine ⟨?_, ?_⟩
  · exact (claim_C7_failure_preserves_form SubmitOutcome.delayThrows _
      (by decide) (by decide)).1
  · exact (claim_C7_failure_preserves_form SubmitOutcome.delayThrows _
      (by decide) (by decide)).2.2.2.2.2.2

/-- C9: while a submission is in flight, `handleClose` is a no-op: the
surface is not closed and no state is reset. -/
theorem claim_C9_close_noop_while_submitting
    (st : ModalState) (h : st.isSubmitting = true) :
    handleClose st = (st, false) := by
  unfold handleClose
  rw [h]
  rfl

/-- C9 witness: a concrete in-flight state is returned unchanged. -/
theorem claim_C9_close_noop_while_submitting_witness :
    handleClose sampleSubmittingState = (sampleSubmittingState, false) :=
  claim_C9_close_noop_while_submitting _ rfl

/-- C10: the "Reserved for you" indicator renders exactly when the
`escrowBuyerAddress` of the listing is present (a non-empty string) and the
session is connected; no comparison with the viewer identity occurs in the
condition. -/
theorem claim_C10_reserved_indicator
    (item : MarketplaceItem) (isConnected : Bool) :
    reservedForYouShown item isConnected = true ↔
      ((∃ s, item.escrowBuyerAddress = some s ∧ s ≠ "") ∧ isConnected = true) := by
  unfold reservedForYouShown jsTruthy
  cases ha : item.escrowBuyerAddress with
  | none => simp
  | some s =>
    simp only [Bool.and_eq_true, Bool.not_eq_true]
    constructor
    · rintro ⟨hne, hc⟩
      refine ⟨⟨s, rfl, ?_⟩, hc⟩
      intro hs
      rw [hs] at hne
      exact absurd hne (by decide)
    · rintro ⟨⟨s2, hs2, hne⟩, hc⟩
      refine ⟨?_, hc⟩
      cases Option.some.inj hs2
      have hnil : s.toList ≠ [] := by
        intro h0
        apply hne
        cases s with
        | mk data => cases h0; rfl
      cases hl : s.toList.isEmpty
      · rfl
      · exact absurd (List.isEmpty_iff.mp hl) hnil

/-- C8: `validateForm` checks its rules in a fixed order -- staged image,
title, description, price, then (escrow only) buyer-address emptiness and
shape -- and returns the distinct message of the first failing rule without
evaluating later rules; with no staged image it always rejects with the
image message, regardless of every other field. -/
theorem claim_C8_validation_order (si : Bool) (ip : Option String) (fd : ListingFormData) :
    ((si = false ∨ jsTruthy ip = false) → validateForm si ip fd = some msgImage) ∧
    (si = true → jsTruthy ip = true → isBlank fd.title = true →
      validateForm si ip fd = some msgTitle) ∧
    (si = true → jsTruthy ip = true → isBlank fd.title = false →
      isBlank fd.description = true → validateForm si ip fd = some msgDescription) ∧
    (si = true → jsTruthy ip = true → isBlank fd.title = false →
      isBlank fd.description = false → priceInvalid fd.price = true →
      validateForm si ip fd = some msgPrice) ∧
    (si = true → jsTruthy ip = true → isBlank fd.title = false →
      isBlank fd.description = false → priceInvalid fd.price = false →
      fd.listingType = "escrow" → isBlank fd.escrowBuyerAddress = true →
      validateForm si ip fd = some msgAddressEmpty) ∧
    (si = true → jsTruthy ip = true → isBlank fd.title = false →
      isBlank fd.description = false → priceInvalid fd.price = false →
      fd.listingType = "escrow" → isBlank fd.escrowBuyerAddress = false →
      validateSuiAddress fd.escrowBuyerAddress = false →
      validateForm si ip fd = some msgAddressShape) ∧
    (si = true → jsTruthy ip = true → isBlank fd.title = false →
      isBlank fd.description = false → priceInvalid fd.price = false →
      (fd.listingType = "escrow" → isBlank fd.escrowBuyerAddress = false ∧
        validateSuiAddress fd.escrowBuyerAddress = true) →
      validateForm si ip fd = none) ∧
    [msgImage, msgTitle, msgDescription, msgPrice, msgAddressEmpty,
      msgAddressShape].Nodup := by
  refine ⟨?_, ?_, ?_, ?_, ?_, ?_, ?_, by decide⟩
  · rintro (hsi | hip)
    · subst hsi
      unfold validateForm
      rw [if_pos (by simp)]
    · unfold validateForm
      rw [if_pos (by simp [hip])]
  · intro hsi hip ht
    subst hsi
    unfold validateForm
    rw [if_neg (by simp [hip]), if_pos ht]
  · intro hsi hip ht hd
    subst hsi
    unfold validateForm
    rw [if_neg (by simp [hip]), if_neg (by simp [ht]), if_pos hd]
  · intro hsi hip ht hd hp
    subst hsi
    unfold validateForm
    rw [if_neg (by simp [hip]), if_neg (by simp [ht]), if_neg (by simp [hd]), if_pos hp]
  · intro hsi hip ht hd hp he hb
    subst hsi
    unfold validateForm
    rw [if_neg (by simp [hip]), if_neg (by simp [ht]), if_neg (by simp [hd]),
      if_neg (by simp [hp]), if_pos (by simp [he]), if_pos hb]
  · intro hsi hip ht hd hp he hb hv
    subst hsi
    unfold validateForm
    rw [if_neg (by simp [hip]), if_neg (by simp [ht]), if_neg (by simp [hd]),
      if_neg (by simp [hp]), if_pos (by simp [he]), if_neg (by simp [hb]),
      if_pos (by simp [hv])]
  · intro hsi hip ht hd hp hesc
    subst hsi
    unfold validateForm
    rw [if_neg (by simp [hip]), if_neg (by simp [ht]), if_neg (by simp [hd]),
      if_neg (by simp [hp])]
    by_cases he : fd.listingType = "escrow"
    · obtain ⟨hb, hv⟩ := hesc he
      rw [if_pos (by simp [he]), if_neg (by simp [hb]), if_neg (by simp [hv])]
    · rw [if_neg (by simp [he])]

/-- C8 witness: a form with no staged image fails with the image message; a
staged form with a blank title fails with the title message. -/
theorem claim_C8_validation_order_witness :
    validateForm false none sampleForm = some msgImage ∧
    validateForm true (some "p")
      { title := " ", description := "d", price := "1", category := "art",
        escrowDuration := "7", listingType := "standard", escrowBuyerAddress := "" }
      = some msgTitle :=
  ⟨(claim_C8_validation_order false none sampleForm).1 (Or.inl rfl),
   (claim_C8_validation_order true (some "p") _).2.1 rfl (by decide) (by decide)⟩

/-- C1: an item is in the filtered result exactly when it is in the input
and its title or seller contains the search string case-insensitively, its
category equals the selected one or the selected category is `"all"`, and,
when it is an escrow listing, the session predicate `canViewEscrowListing` holds of
its buyer address (non-escrow items pass unconditionally). -/
theorem claim_C1_filtering
    (canViewEscrowListing : Option String → Bool) (searchQuery category : String)
    (items : List MarketplaceItem) (item : MarketplaceItem) :
    item ∈ filteredItems canViewEscrowListing searchQuery category items ↔
      (item ∈ items ∧
       ((∃ s t, s ++ searchQuery.toList.map Char.toLower ++ t
           = item.title.toList.map Char.toLower) ∨
        (∃ s t, s ++ searchQuery.toList.map Char.toLower ++ t
           = item.seller.toList.map Char.toLower)) ∧
       (item.category = category ∨ category = "all") ∧
       (item.listingType = "escrow" →
         canViewEscrowListing item.escrowBuyerAddress = true)) := by
  unfold filteredItems
  rw [List.mem_filter]
  apply and_congr_right
  intro _
  unfold matchesItem containsCI
  simp only [Bool.and_eq_true, Bool.or_eq_true, containsList_iff, beq_iff_eq]
  rw [and_assoc]
  apply and_congr_right
  intro _
  apply and_congr
  · exact or_comm
  · by_cases he : item.listingType = "escrow"
    · rw [if_pos he]
      simp [he]
    · rw [if_neg he]
      simp [he]

/-! ### Sorting helper lemmas -/

theorem sortCmp_recent (a b : MarketplaceItem) :
    sortCmp "recent" a b = b.createdAt - a.createdAt := rfl

theorem sortCmp_popular (a b : MarketplaceItem) :
    sortCmp "popular" a b = b.likes - a.likes := rfl

theorem sortCmp_priceLow (a b : MarketplaceItem) :
    sortCmp "price-low" a b = cmpSign (parseFloatJS a.price) (parseFloatJS b.price) := rfl

theorem sortCmp_priceHigh (a b : MarketplaceItem) :
    sortCmp "price-high" a b = cmpSign (parseFloatJS b.price) (parseFloatJS a.price) := rfl

theorem sortCmp_default (k : String) (h1 : k ≠ "price-low") (h2 : k ≠ "price-high")
    (h3 : k ≠ "popular") (h4 : k ≠ "recent") (a b : MarketplaceItem) :
    sortCmp k a b = 0 := by
  unfold sortCmp
  split <;> simp_all

theorem sortedItems_perm (k : String) (l : List MarketplaceItem) :
    (sortedItems k l).Perm l :=
  List.mergeSort_perm l _

/-- The comparator of the two price keys is the numeric comparison of the
parsed prices whenever both parse finitely. -/
theorem cmpSign_le_zero_iff {a b : MarketplaceItem}
    (ha : hasFinitePrice a = true) (hb : hasFinitePrice b = true) :
    (cmpSign (parseFloatJS a.price) (parseFloatJS b.price) ≤ 0 ↔ priceQ a ≤ priceQ b) := by
  unfold hasFinitePrice at ha hb
  unfold priceQ
  rcases hpa : parseFloatJS a.price with _ | xa
  · rw [hpa] at ha; simp at ha
  rcases xa with qa | posa
  swap
  · rw [hpa] at ha; simp at ha
  rcases hpb : parseFloatJS b.price with _ | xb
  · rw [hpb] at hb; simp at hb
  rcases xb with qb | posb
  swap
  · rw [hpb] at hb; simp at hb
  show (if qa < qb then (-1 : Int) else if qb < qa then 1 else 0) ≤ 0 ↔ qa ≤ qb
  rcases lt_trichotomy qa qb with h | h | h
  · rw [if_pos h]
    simp [le_of_lt h]
  · subst h
    rw [if_neg (lt_irrefl qa), if_neg (lt_irrefl qa)]
    simp
  · rw [if_neg (asymm h), if_pos h]
    simp [not_le.mpr h]

theorem sortedItems_recent_pairwise (l : List MarketplaceItem) :
    (sortedItems "recent" l).Pairwise (fun a b => b.createdAt ≤ a.createdAt) := by
  have hs := @List.sorted_mergeSort MarketplaceItem
    (fun a b => decide (sortCmp "recent" a b ≤ 0))
    (fun a b c hab hbc => by
      rw [decide_eq_true_eq, sortCmp_recent] at *
      omega)
    (fun a b => by
      rw [Bool.or_eq_true, decide_eq_true_eq, decide_eq_true_eq, sortCmp_recent,
        sortCmp_recent]
      omega)
    l
  exact hs.imp (fun hab => by
    rw [decide_eq_true_eq, sortCmp_recent] at hab
    omega)

theorem sortedItems_popular_pairwise (l : List MarketplaceItem) :
    (sortedItems "popular" l).Pairwise (fun a b => b.likes ≤ a.likes) := by
  have hs := @List.sorted_mergeSort MarketplaceItem
    (fun a b => decide (sortCmp "popular" a b ≤ 0))
    (fun a b c hab hbc => by
      rw [decide_eq_true_eq, sortCmp_popular] at *
      omega)
    (fun a b => by
      rw [Bool.or_eq_true, decide_eq_true_eq, decide_eq_true_eq, sortCmp_popular,
        sortCmp_popular]
      omega)
    l
  exact hs.imp (fun hab => by
    rw [decide_eq_true_eq, sortCmp_popular] at hab
    omega)

theorem sortedItems_priceLow_pairwise (l : List MarketplaceItem)
    (hl : ∀ i ∈ l, hasFinitePrice i = true) :
    (sortedItems "price-low" l).Pairwise (fun a b => priceQ a ≤ priceQ b) := by
  have hiff : ∀ a b : MarketplaceItem, hasFinitePrice a = true → hasFinitePrice b = true →
      (decide (sortCmp "price-low" a b ≤ 0) = true ↔ priceQ a ≤ priceQ b) := by
    intro a b ha hb
    rw [decide_eq_true_eq, sortCmp_priceLow]
    exact cmpSign_le_zero_iff ha hb
  have hmap : (l.attach.map (fun x => (⟨x.1, hl x.1 x.2⟩ :
      {i : MarketplaceItem // hasFinitePrice i = true}))).map Subtype.val = l := by
    rw [List.map_map]
    exact List.attach_map_subtype_val l
  have key : sortedItems "price-low" l =
      ((l.attach.map (fun x => (⟨x.1, hl x.1 x.2⟩ :
        {i : MarketplaceItem // hasFinitePrice i = true}))).mergeSort
        (fun a b => decide (sortCmp "price-low" a.1 b.1 ≤ 0))).map Subtype.val := by
    unfold sortedItems
    rw [@List.map_mergeSort _ _
      (fun a b : {i : MarketplaceItem // hasFinitePrice i = true} =>
        decide (sortCmp "price-low" a.1 b.1 ≤ 0))
      (fun a b => decide (sortCmp "price-low" a b ≤ 0))
      Subtype.val (l.attach.map (fun x => ⟨x.1, hl x.1 x.2⟩)) (fun a _ b _ => rfl),
      hmap]
  have hs := @List.sorted_mergeSort {i : MarketplaceItem // hasFinitePrice i = true}
    (fun a b => decide (sortCmp "price-low" a.1 b.1 ≤ 0))
    (fun a b c hab hbc =>
      (hiff a.1 c.1 a.2 c.2).mpr
        (le_trans ((hiff a.1 b.1 a.2 b.2).mp hab) ((hiff b.1 c.1 b.2 c.2).mp hbc)))
    (fun a b => by
      rcases le_total (priceQ a.1) (priceQ b.1) with h | h
      · have hd := (hiff a.1 b.1 a.2 b.2).mpr h
        simp [hd]
      · have hd := (hiff b.1 a.1 b.2 a.2).mpr h
        simp [hd])
    (l.attach.map (fun x => ⟨x.1, hl x.1 x.2⟩))
  rw [key, List.pairwise_map]
  exact hs.imp (fun {a b} hab => (hiff a.1 b.1 a.2 b.2).mp hab)

theorem sortedItems_priceHigh_pairwise (l : List MarketplaceItem)
    (hl : ∀ i ∈ l, hasFinitePrice i = true) :
    (sortedItems "price-high" l).Pairwise (fun a b => priceQ b ≤ priceQ a) := by
  have hiff : ∀ a b : MarketplaceItem, hasFinitePrice a = true → hasFinitePrice b = true →
      (decide (sortCmp "price-high" a b ≤ 0) = true ↔ priceQ b ≤ priceQ a) := by
    intro a b ha hb
    rw [decide_eq_true_eq, sortCmp_priceHigh]
    exact cmpSign_le_zero_iff hb ha
  have hmap : (l.attach.map (fun x => (⟨x.1, hl x.1 x.2⟩ :
      {i : MarketplaceItem // hasFinitePrice i = true}))).map Subtype.val = l := by
    rw [List.map_map]
    exact List.attach_map_subtype_val l
  have key : sortedItems "price-high" l =
      ((l.attach.map (fun x => (⟨x.1, hl x.1 x.2⟩ :
        {i : MarketplaceItem // hasFinitePrice i = true}))).mergeSort
        (fun a b => decide (sortCmp "price-high" a.1 b.1 ≤ 0))).map Subtype.val := by
    unfold sortedItems
    rw [@List.map_mergeSort _ _
      (fun a b : {i : MarketplaceItem // hasFinitePrice i = true} =>
        decide (sortCmp "price-high" a.1 b.1 ≤ 0))
      (fun a b => decide (sortCmp "price-high" a b ≤ 0))
      Subtype.val (l.attach.map (fun x => ⟨x.1, hl x.1 x.2⟩)) (fun a _ b _ => rfl),
      hmap]
  have hs := @List.sorted_mergeSort {i : MarketplaceItem // hasFinitePrice i = true}
    (fun a b => decide (sortCmp "price-high" a.1 b.1 ≤ 0))
    (fun a b c hab hbc =>
      (hiff a.1 c.1 a.2 c.2).mpr
        (le_trans ((hiff b.1 c.1 b.2 c.2).mp hbc) ((hiff a.1 b.1 a.2 b.2).mp hab)))
    (fun a b => by
      rcases le_total (priceQ b.1) (priceQ a.1) with h | h
      · have hd := (hiff a.1 b.1 a.2 b.2).mpr h
        simp [hd]
      · have hd := (hiff b.1 a.1 b.2 a.2).mpr h
        simp [hd])
    (l.attach.map (fun x => ⟨x.1, hl x.1 x.2⟩))
  rw [key, List.pairwise_map]
  exact hs.imp (fun {a b} hab => (hiff a.1 b.1 a.2 b.2).mp hab)

theorem sortedItems_default (k : String) (h1 : k ≠ "recent") (h2 : k ≠ "price-low")
    (h3 : k ≠ "price-high") (h4 : k ≠ "popular") (l : List MarketplaceItem) :
    sortedItems k l = l := by
  unfold sortedItems
  apply List.mergeSort_of_sorted
  have hz : ∀ a b : MarketplaceItem, decide (sortCmp k a b ≤ 0) = true := by
    intro a b
    rw [sortCmp_default k h2 h3 h4 h1]
    rfl
  induction l with
  | nil => exact List.Pairwise.nil
  | cons x xs ih => exact List.Pairwise.cons (fun y _ => hz x y) ih

/-- C4: sorting the filtered list orders it by descending `createdAt` for
`"recent"`, descending `likes` for `"popular"`, ascending / descending
numeric price (parsed from the decimal string) for `"price-low"` /
`"price-high"` -- each a permutation of the input -- and any other key
leaves the filtered list exactly in its original order. -/
theorem claim_C4_sorting (l : List MarketplaceItem) :
    ((sortedItems "recent" l).Perm l ∧
     (sortedItems "recent" l).Pairwise (fun a b => b.createdAt ≤ a.createdAt)) ∧
    ((sortedItems "popular" l).Perm l ∧
     (sortedItems "popular" l).Pairwise (fun a b => b.likes ≤ a.likes)) ∧
    ((∀ i ∈ l, hasFinitePrice i = true) →
      ((sortedItems "price-low" l).Perm l ∧
       (sortedItems "price-low" l).Pairwise (fun a b => priceQ a ≤ priceQ b)) ∧
      ((sortedItems "price-high" l).Perm l ∧
       (sortedItems "price-high" l).Pairwise (fun a b => priceQ b ≤ priceQ a))) ∧
    (∀ k, k ≠ "recent" → k ≠ "price-low" → k ≠ "price-high" → k ≠ "popular" →
      sortedItems k l = l) :=
  ⟨⟨sortedItems_perm _ l, sortedItems_recent_pairwise l⟩,
   ⟨sortedItems_perm _ l, sortedItems_popular_pairwise l⟩,
   fun hl => ⟨⟨sortedItems_perm _ l, sortedItems_priceLow_pairwise l hl⟩,
     ⟨sortedItems_perm _ l, sortedItems_priceHigh_pairwise l hl⟩⟩,
   fun k h1 h2 h3 h4 => sortedItems_default k h1 h2 h3 h4 l⟩

/-- C4 witness: the sample list sorts ascending by price under
`"price-low"` and is left untouched by an unrecognized key. -/
theorem claim_C4_sorting_witness :
    (sortedItems "price-low" sampleItems).Pairwise (fun a b => priceQ a ≤ priceQ b) ∧
    sortedItems "name" sampleItems = sampleItems :=
  ⟨(((claim_C4_sorting sampleItems).2.2.1 (by decide)).1).2,
   (claim_C4_sorting sampleItems).2.2.2 "name" (by decide) (by decide) (by decide)
     (by decide)⟩

/-- C5: on a filtered list whose items all have finite, pairwise-distinct
numeric prices, the `"price-low"` and `"price-high"` sort orders are exact
reverses of each other. -/
theorem claim_C5_price_reversal (l : List MarketplaceItem)
    (hfin : ∀ i ∈ l, hasFinitePrice i = true)
    (hdist : l.Pairwise (fun a b => priceQ a ≠ priceQ b)) :
    (sortedItems "price-low" l).reverse = sortedItems "price-high" l := by
  have permLow : (sortedItems "price-low" l).Perm l := sortedItems_perm _ l
  have permHigh : (sortedItems "price-high" l).Perm l := sortedItems_perm _ l
  have sortedLow := sortedItems_priceLow_pairwise l hfin
  have sortedHigh := sortedItems_priceHigh_pairwise l hfin
  have hsymm : ∀ {x y : MarketplaceItem}, priceQ x ≠ priceQ y → priceQ y ≠ priceQ x :=
    fun h => Ne.symm h
  have distLow : (sortedItems "price-low" l).Pairwise (fun a b => priceQ a ≠ priceQ b) :=
    (List.Perm.pairwise_iff hsymm permLow).mpr hdist
  have distHigh : (sortedItems "price-high" l).Pairwise (fun a b => priceQ a ≠ priceQ b) :=
    (List.Perm.pairwise_iff hsymm permHigh).mpr hdist
  have revSorted : (sortedItems "price-low" l).reverse.Pairwise
      (fun a b => priceQ b ≤ priceQ a) :=
    List.pairwise_reverse.mpr sortedLow
  have revDist : (sortedItems "price-low" l).reverse.Pairwise
      (fun a b => priceQ a ≠ priceQ b) :=
    List.pairwise_reverse.mpr (distLow.imp (fun h => Ne.symm h))
  have strictRev : (sortedItems "price-low" l).reverse.Pairwise
      (fun a b => priceQ b < priceQ a) :=
    (revSorted.and revDist).imp (fun h => lt_of_le_of_ne h.1 (Ne.symm h.2))
  have strictHigh : (sortedItems "price-high" l).Pairwise
      (fun a b => priceQ b < priceQ a) :=
    (sortedHigh.and distHigh).imp (fun h => lt_of_le_of_ne h.1 (Ne.symm h.2))
  have permRevHigh : (sortedItems "price-low" l).reverse.Perm
      (sortedItems "price-high" l) :=
    ((sortedItems "price-low" l).reverse_perm.trans permLow).trans permHigh.symm
  haveI : IsAntisymm MarketplaceItem (fun a b => priceQ b < priceQ a) :=
    ⟨fun a b h1 h2 => absurd (lt_trans h1 h2) (lt_irrefl _)⟩
  exact List.eq_of_perm_of_sorted permRevHigh strictRev strictHigh

/-- C5 witness: the sample list of three distinct finite prices has its
low-to-high order equal to the reverse of its high-to-low order. -/
theorem claim_C5_price_reversal_witness :
    (sortedItems "price-low" sampleItems).reverse = sortedItems "price-high" sampleItems :=
  claim_C5_price_reversal sampleItems (by decide) (by decide)
